import Mathlib

/-!
# Verification of the credential & one-time-token lifecycle subsystem

Shallow embedding, in Lean 4, of the security core of the `ptracker-api`
backend: the constant-time comparison helper (`src/utils/crypto.ts`), and the
user service (`src/services/userService.ts`: account creation, login,
password-reset codes, email-verification OTP codes, and account-confirmation
tokens).

Modelling conventions:
* JavaScript strings are Lean `String`s (sequences of Unicode scalar values).
* Node `Buffer`s are `List Nat` (byte sequences); `Buffer.from(s, enc)` is
  `bufferFrom s enc` with `enc ∈ {utf8, hex}` (the two encodings used by the
  program).
* `crypto.timingSafeEqual` is external library code; it is modelled by its
  documented behaviour: a full XOR sweep over both equal-length buffers with
  no early exit (`ctEqLoop`).  An instrumented variant also returns the
  number of byte steps performed, which serves as the timing model.
* `crypto.createHash("sha256")....digest("hex")` is external library code;
  it is modelled as an arbitrary function `sha : String → String` passed as a
  parameter, so every theorem holds for the actual SHA-256 as a special case
  (the service code relies only on the hash being a deterministic function).
* The Drizzle/Postgres tables are lists of rows; `select ... where eq(col, v)
  limit 1` is `List.find?`, `delete ... where eq(col, v)` is `List.filter`
  with the negated predicate, and `insert` appends.  Timestamps are `Nat`
  milliseconds (`Date.prototype.getTime` values); the ISO-string round trip
  performed by the code preserves the instant, so it is elided.
* Randomly generated values (`crypto.randomInt` codes, `crypto.randomUUID`
  tokens, column defaults) and the clock (`new Date()`) are passed to each
  service function as explicit parameters.
* A thrown `ServiceError` is `Except.error` of the corresponding
  `ErrorCode`; every service function returns its result together with the
  (possibly updated) database state.
-/

set_option autoImplicit false

/-- The two `BufferEncoding`s the program passes to `Buffer.from`:
`"utf8"` (the default of `safeStringCompare`) and `"hex"` (used by
`loginUser` for the stored and computed password digests). -/
inductive BufEncoding where
  | utf8
  | hex
  deriving DecidableEq, Repr

/-- UTF-8 encoding of one Unicode scalar value (what `Buffer.from(s,"utf8")`
produces per character for well-formed strings). -/
def utf8EncodeCharB (c : Char) : List Nat :=
  let v := c.toNat
  if v < 0x80 then [v]
  else if v < 0x800 then [0xC0 + v / 0x40, 0x80 + v % 0x40]
  else if v < 0x10000 then
    [0xE0 + v / 0x1000, 0x80 + (v / 0x40) % 0x40, 0x80 + v % 0x40]
  else
    [0xF0 + v / 0x40000, 0x80 + (v / 0x1000) % 0x40, 0x80 + (v / 0x40) % 0x40,
      0x80 + v % 0x40]

/-- UTF-8 encoding of a character sequence. -/
def utf8Bytes : List Char → List Nat
  | [] => []
  | c :: cs => utf8EncodeCharB c ++ utf8Bytes cs

/-- Model of `Buffer.from(s, "utf8")` as a byte list. -/
def bufUtf8 (s : String) : List Nat :=
  utf8Bytes s.data

/-- Numeric value of a hexadecimal digit character, when it is one
(`Buffer.from(s, "hex")` accepts both cases). -/
def hexDigitVal (c : Char) : Option Nat :=
  if '0' ≤ c ∧ c ≤ '9' then some (c.toNat - '0'.toNat)
  else if 'a' ≤ c ∧ c ≤ 'f' then some (c.toNat - 'a'.toNat + 10)
  else if 'A' ≤ c ∧ c ≤ 'F' then some (c.toNat - 'A'.toNat + 10)
  else none

/-- Model of `Buffer.from(s, "hex")`: decode complete pairs of hex digits into bytes,
stopping at the first character that is not a hex digit (Node semantics). -/
def hexDecode : List Char → List Nat
  | c1 :: c2 :: rest =>
    match hexDigitVal c1, hexDigitVal c2 with
    | some h, some l => (h * 16 + l) :: hexDecode rest
    | _, _ => []
  | _ => []

/-- Model of `Buffer.from(str, encoding)` for the encodings the program uses. -/
def bufferFrom (s : String) (enc : BufEncoding) : List Nat :=
  match enc with
  | .utf8 => bufUtf8 s
  | .hex => hexDecode s.data

/-- The byte loop of `crypto.timingSafeEqual` (node's documented behaviour on
equal-length buffers): XOR every byte pair into an accumulator, never exiting
early.  Returns the final accumulator together with the number of byte steps
performed (the timing model of the loop). -/
def ctEqLoop : List Nat → List Nat → Nat → Nat × Nat
  | x :: xs, y :: ys, acc =>
    let r := ctEqLoop xs ys (acc ||| (x ^^^ y))
    (r.1, r.2 + 1)
  | _, _, acc => (acc, 0)

/-- Model of `crypto.timingSafeEqual(buffer1, buffer2)` (defined for equal-length
buffers): true iff the XOR sweep never saw a differing bit. -/
def timingSafeEqual (a b : List Nat) : Bool :=
  (ctEqLoop a b 0).1 == 0

/--
Function `safeStringCompare(str1, str2, encoding = "utf8")` from
`src/utils/crypto.ts`:

```ts
const buffer1 = Buffer.from(str1, encoding);
const buffer2 = Buffer.from(str2, encoding);
if (buffer1.length !== buffer2.length) { return false; }
return crypto.timingSafeEqual(buffer1, buffer2);
```
-/
def safeStringCompare (str1 str2 : String) (enc : BufEncoding := .utf8) : Bool :=
  let buffer1 := bufferFrom str1 enc
  let buffer2 := bufferFrom str2 enc
  if buffer1.length ≠ buffer2.length then false
  else timingSafeEqual buffer1 buffer2

/-- Cost model of `Buffer.from`: one time unit per produced byte plus a
constant. -/
def bufFromCost (len : Nat) : Nat := len + 1

/-- Instrumented `safeStringCompare`: the Boolean result of the source
function paired with its running time under the cost model (`Buffer.from`
linear in buffer length, one unit per comparison-loop step, one unit for the
length test and return). -/
def safeStringCompareT (str1 str2 : String) (enc : BufEncoding) : Bool × Nat :=
  let buffer1 := bufferFrom str1 enc
  let buffer2 := bufferFrom str2 enc
  if buffer1.length ≠ buffer2.length then
    (false, bufFromCost buffer1.length + bufFromCost buffer2.length + 1)
  else
    let r := ctEqLoop buffer1 buffer2 0
    (r.1 == 0, bufFromCost buffer1.length + bufFromCost buffer2.length + 1 + r.2)

/-- Error codes of the service layer (`src/constants/errorCodes.ts`),
restricted to the codes the embedded functions can raise. -/
inductive ErrorCode where
  | INVALID_CREDENTIALS
  | USER_NOT_FOUND
  | USER_ALREADY_EXISTS
  | EMAIL_ALREADY_IN_USE
  | RESET_CODE_NOT_FOUND
  | INVALID_RESET_CODE
  | RESET_CODE_EXPIRED
  | VERIFICATION_CODE_NOT_FOUND
  | INVALID_VERIFICATION_CODE
  | VERIFICATION_CODE_EXPIRED
  | INVALID_CODE_FORMAT
  | CONFIRMATION_TOKEN_NOT_FOUND
  deriving DecidableEq, Repr

/-- A row of the `users` table (`src/db/schema.ts`): the `users` pgTable has
columns `user_id`, `email` (unique), `password`, `created_at`, `updated_at`.
There is no `verified` column. -/
structure UserRow where
  userId : String
  email : String
  password : String
  createdAt : Nat
  updatedAt : Nat
  deriving DecidableEq, Repr

/-- The `User` type returned by the service layer (`src/types/user.ts`):
`userId`, `email`, `createdAt`, `updatedAt` — and no password field.  This is
what the `{ password: _, ...userWithoutPassword }` destructuring produces. -/
structure User where
  userId : String
  email : String
  createdAt : Nat
  updatedAt : Nat
  deriving DecidableEq, Repr

/-- The `{ password: _, ...userWithoutPassword }` projection. -/
def UserRow.withoutPassword (r : UserRow) : User :=
  { userId := r.userId, email := r.email, createdAt := r.createdAt,
    updatedAt := r.updatedAt }

/-- A row of the `reset_codes` table: `email` (primary key), `code`,
`expires_at`. -/
structure ResetRow where
  email : String
  code : String
  expiresAt : Nat
  deriving DecidableEq, Repr

/-- A row of the `verification_codes` table: `email` (primary key), `code`,
`expires_at`. -/
structure VerifRow where
  email : String
  code : String
  expiresAt : Nat
  deriving DecidableEq, Repr

/-- A row of the `confirmation_tokens` table: `email` (primary key), `token`
(unique), `created_at`. -/
structure ConfRow where
  email : String
  token : String
  createdAt : Nat
  deriving DecidableEq, Repr

/-- The persistent state the user service touches: the `users` table and the
three secret tables. -/
structure DB where
  users : List UserRow
  resetCodes : List ResetRow
  verificationCodes : List VerifRow
  confirmationTokens : List ConfRow
  deriving DecidableEq, Repr

deriving instance DecidableEq for Except

/-- Outcome of a service call: the returned value or the thrown
`ServiceError`'s code, together with the database state after the call. -/
def SvcResult (α : Type) : Type := Except ErrorCode α × DB

/-- Function `hashPassword` (`userService.ts`): SHA-256 hex digest of the plaintext.
The digest itself is the external `node:crypto` primitive, abstracted as the
function parameter `sha`; `hashPassword` is its application, which is all the
call sites use. -/
def hashPassword (sha : String → String) (password : String) : String :=
  sha password

/--
Function `createUser(email, password)` (`src/services/userService.ts`): reject when a
row with this email exists, else hash the password and insert a new row
(generated `user_id` and `now()` defaults are the parameters `newId`/`now`),
returning the user without the password field.
-/
def createUser (sha : String → String) (newId : String) (now : Nat)
    (email password : String) (db : DB) : SvcResult User :=
  match db.users.find? (fun u => u.email == email) with
  | some _ => (.error .USER_ALREADY_EXISTS, db)
  | none =>
    let hashedPassword := hashPassword sha password
    let newUser : UserRow :=
      { userId := newId, email := email, password := hashedPassword,
        createdAt := now, updatedAt := now }
    (.ok newUser.withoutPassword, { db with users := db.users ++ [newUser] })

/--
Function `loginUser(email, password)` (`src/services/userService.ts`): hash the
submitted password, look the user up by email, and compare the stored and
computed digests with `safeStringCompare(..., "hex")`.  Both the missing-user
and the mismatch paths throw `INVALID_CREDENTIALS`; no path writes to the
database.
-/
def loginUser (sha : String → String) (email password : String) (db : DB) :
    SvcResult User :=
  let hashedPassword := hashPassword sha password
  match db.users.find? (fun u => u.email == email) with
  | none => (.error .INVALID_CREDENTIALS, db)
  | some matchedUser =>
    if safeStringCompare matchedUser.password hashedPassword .hex then
      (.ok matchedUser.withoutPassword, db)
    else
      (.error .INVALID_CREDENTIALS, db)

/-- The 15-minute code TTL in milliseconds (`expiresAt.setMinutes(+15)`). -/
def resetCodeTtl : Nat := 15 * 60 * 1000

/--
Function `sendResetCode(email)` (`src/services/userService.ts`): require the user to
exist, then delete any existing reset code for this email and insert the
fresh one (`code` is the `crypto.randomInt` output, passed as a parameter)
with `expiresAt = now + 15min`.
-/
def sendResetCode (code : String) (now : Nat) (email : String) (db : DB) :
    SvcResult (String × Nat) :=
  match db.users.find? (fun u => u.email == email) with
  | none => (.error .USER_NOT_FOUND, db)
  | some _ =>
    let expiresAt := now + resetCodeTtl
    let cleared := db.resetCodes.filter (fun r => !(r.email == email))
    let inserted := cleared ++ [{ email := email, code := code,
                                  expiresAt := expiresAt : ResetRow }]
    (.ok (code, expiresAt), { db with resetCodes := inserted })

/--
Function `resetPassword(email, code, newPassword)` (`src/services/userService.ts`):
existence of the user → existence of a stored code → constant-time match →
expiry → password update → code consumption, in exactly that order.
-/
def resetPassword (sha : String → String) (now : Nat)
    (email code newPassword : String) (db : DB) : SvcResult Unit :=
  match db.users.find? (fun u => u.email == email) with
  | none => (.error .USER_NOT_FOUND, db)
  | some _ =>
    match db.resetCodes.find? (fun r => r.email == email) with
    | none => (.error .RESET_CODE_NOT_FOUND, db)
    | some resetData =>
      if !(safeStringCompare resetData.code code .utf8) then
        (.error .INVALID_RESET_CODE, db)
      else if resetData.expiresAt < now then
        (.error .RESET_CODE_EXPIRED,
          { db with resetCodes :=
              db.resetCodes.filter (fun r => !(r.email == email)) })
      else
        let updatedUsers := db.users.map (fun u =>
          if u.email == email then
            { u with password := hashPassword sha newPassword, updatedAt := now }
          else u)
        (.ok (),
          { db with users := updatedUsers,
                    resetCodes :=
                      db.resetCodes.filter (fun r => !(r.email == email)) })

/--
Function `deleteUser(userId)` (`src/services/userService.ts` and
`src/unnamed/part_008`): require the user to exist, delete the user row, and
delete the reset codes for the user's email.  No other table is touched.
-/
def deleteUser (userId : String) (db : DB) : SvcResult Unit :=
  match db.users.find? (fun u => u.userId == userId) with
  | none => (.error .USER_NOT_FOUND, db)
  | some user =>
    (.ok (),
      { db with
          users := db.users.filter (fun u => !(u.userId == userId)),
          resetCodes :=
            db.resetCodes.filter (fun r => !(r.email == user.email)) })

/--
Function `sendVerificationCode(email)` (`src/unnamed/part_008`): require the user to
exist, then delete any existing verification code for this email and insert
the fresh one with `expiresAt = now + 15min`.  The outbound e-mail is an
external side effect that does not touch the database.
-/
def sendVerificationCode (code : String) (now : Nat) (email : String)
    (db : DB) : SvcResult (String × Nat) :=
  match db.users.find? (fun u => u.email == email) with
  | none => (.error .USER_NOT_FOUND, db)
  | some _ =>
    let expiresAt := now + resetCodeTtl
    let cleared := db.verificationCodes.filter (fun v => !(v.email == email))
    let inserted := cleared ++ [{ email := email, code := code,
                                  expiresAt := expiresAt : VerifRow }]
    (.ok (code, expiresAt), { db with verificationCodes := inserted })

/-- The test `/^\d\x7b6\x7d$/` of `verifyEmail`: exactly six characters, each a
decimal digit. -/
def isSixDigitCode (code : String) : Bool :=
  code.length == 6 && code.data.all (fun c => c.isDigit)

/--
Function `verifyEmail(email, code)` (`src/unnamed/part_008`): reject malformed codes
(the six-digit test) before anything else, then existence of the user → existence of
a stored code → constant-time match → expiry → consumption.  A successful
verification only deletes the code; the source notes that the user table has
no `verified` flag to update.
-/
def verifyEmail (now : Nat) (email code : String) (db : DB) : SvcResult Unit :=
  if !(isSixDigitCode code) then
    (.error .INVALID_CODE_FORMAT, db)
  else
    match db.users.find? (fun u => u.email == email) with
    | none => (.error .USER_NOT_FOUND, db)
    | some _ =>
      match db.verificationCodes.find? (fun v => v.email == email) with
      | none => (.error .VERIFICATION_CODE_NOT_FOUND, db)
      | some verificationData =>
        if !(safeStringCompare verificationData.code code .utf8) then
          (.error .INVALID_VERIFICATION_CODE, db)
        else if verificationData.expiresAt < now then
          (.error .VERIFICATION_CODE_EXPIRED,
            { db with verificationCodes :=
                db.verificationCodes.filter (fun v => !(v.email == email)) })
        else
          (.ok (),
            { db with verificationCodes :=
                db.verificationCodes.filter (fun v => !(v.email == email)) })

/--
Function `generateAndSendConfirmationToken(email)` (`src/unnamed/part_008`): delete
any existing confirmation token for this email and insert the fresh one
(`token` is the `crypto.randomUUID` output, passed as a parameter).
-/
def generateAndSendConfirmationToken (token : String) (now : Nat)
    (email : String) (db : DB) : String × DB :=
  let cleared := db.confirmationTokens.filter (fun c => !(c.email == email))
  let inserted := cleared ++ [{ email := email, token := token,
                                createdAt := now : ConfRow }]
  (token, { db with confirmationTokens := inserted })

/--
Function `confirmAccountByToken(token)` (`src/unnamed/part_008`): look the
confirmation secret up by its token value; a miss (including an already
consumed token) throws `CONFIRMATION_TOKEN_NOT_FOUND`.  Then require the
owning user to exist, and delete the token (single use).  The source notes
that the user table has no `verified` flag to update, so nothing else
changes.
-/
def confirmAccountByToken (token : String) (db : DB) : SvcResult Unit :=
  match db.confirmationTokens.find? (fun c => c.token == token) with
  | none => (.error .CONFIRMATION_TOKEN_NOT_FOUND, db)
  | some confirmationData =>
    match db.users.find? (fun u => u.email == confirmationData.email) with
    | none => (.error .USER_NOT_FOUND, db)
    | some _ =>
      (.ok (),
        { db with confirmationTokens :=
            db.confirmationTokens.filter (fun c => !(c.token == token)) })

/-- A string made of ASCII characters (in particular any string of decimal
digits, such as the generated reset/verification codes). -/
def asciiString (s : String) : Prop := ∀ c ∈ s.data, c.toNat < 128

instance (s : String) : Decidable (asciiString s) :=
  List.decidableBAll _ s.data

/-- At most one row per owning key: the uniqueness discipline the
replace-on-reissue pattern maintains (and the `email` primary keys enforce)
on the secret tables. -/
def atMostOnePerKey {α : Type} (key : α → String) (l : List α) : Prop :=
  ∀ e, (l.filter (fun r => key r == e)).length ≤ 1

/-- A concrete database used to evaluate the services at specific inputs:
one registered user who owns one live reset code, one live verification
code, and one live confirmation token. -/
def exDb : DB :=
  { users := [{ userId := "u1", email := "a@x.com", password := "0f",
                createdAt := 0, updatedAt := 0 }],
    resetCodes := [{ email := "a@x.com", code := "123456", expiresAt := 100 }],
    verificationCodes := [{ email := "a@x.com", code := "123456",
                            expiresAt := 100 }],
    confirmationTokens := [{ email := "a@x.com", token := "tok-1",
                             createdAt := 0 }] }

/-! ## Library of facts about the comparison primitive -/

theorem natOrEqZeroIff (a b : Nat) : a ||| b = 0 ↔ a = 0 ∧ b = 0 := by
  constructor
  · intro h
    constructor
    · apply Nat.zero_of_testBit_eq_false
      intro i
      have := congrArg (fun n => Nat.testBit n i) h
      simp only [Nat.testBit_lor, Nat.zero_testBit] at this
      exact (Bool.or_eq_false_iff.mp this).1
    · apply Nat.zero_of_testBit_eq_false
      intro i
      have := congrArg (fun n => Nat.testBit n i) h
      simp only [Nat.testBit_lor, Nat.zero_testBit] at this
      exact (Bool.or_eq_false_iff.mp this).2
  · rintro ⟨h1, h2⟩
    simp [h1, h2]

theorem ctEqLoop_fst_eq_zero_iff (xs : List Nat) :
    ∀ (ys : List Nat) (acc : Nat), xs.length = ys.length →
      ((ctEqLoop xs ys acc).1 = 0 ↔ acc = 0 ∧ xs = ys) := by
  induction xs with
  | nil =>
    intro ys acc hlen
    cases ys with
    | nil => simp [ctEqLoop]
    | cons y ys => simp at hlen
  | cons x xs ih =>
    intro ys acc hlen
    cases ys with
    | nil => simp at hlen
    | cons y ys =>
      simp only [List.length_cons, Nat.succ_inj] at hlen
      simp only [ctEqLoop]
      rw [ih ys (acc ||| (x ^^^ y)) hlen]
      constructor
      · rintro ⟨h0, hrest⟩
        rcases (natOrEqZeroIff _ _).mp h0 with ⟨hacc, hxor⟩
        have hxy : x = y := Nat.xor_eq_zero.mp hxor
        exact ⟨hacc, by simp [hxy, hrest]⟩
      · rintro ⟨hacc, heq⟩
        have hx : x = y := by
          have := congrArg (fun l => l.headI) heq
          simpa using this
        have ht : xs = ys := by
          have := congrArg List.tail heq
          simpa using this
        exact ⟨by simp [hacc, hx, Nat.xor_self], ht⟩

theorem ctEqLoop_snd_eq_length (xs : List Nat) :
    ∀ (ys : List Nat) (acc : Nat), xs.length = ys.length →
      (ctEqLoop xs ys acc).2 = xs.length := by
  induction xs with
  | nil =>
    intro ys acc hlen
    cases ys with
    | nil => simp [ctEqLoop]
    | cons y ys => simp at hlen
  | cons x xs ih =>
    intro ys acc hlen
    cases ys with
    | nil => simp at hlen
    | cons y ys =>
      simp only [List.length_cons, Nat.succ_inj] at hlen
      simp [ctEqLoop, ih ys _ hlen]

theorem timingSafeEqual_eq_true_iff (a b : List Nat) (hlen : a.length = b.length) :
    timingSafeEqual a b = true ↔ a = b := by
  unfold timingSafeEqual
  rw [beq_iff_eq, ctEqLoop_fst_eq_zero_iff a b 0 hlen]
  simp

theorem safeStringCompare_self (s : String) (enc : BufEncoding) :
    safeStringCompare s s enc = true := by
  unfold safeStringCompare
  simp [timingSafeEqual_eq_true_iff (bufferFrom s enc) (bufferFrom s enc) rfl]

theorem safeStringCompare_eq_true_iff_buf (a b : String) (enc : BufEncoding) :
    safeStringCompare a b enc = true ↔ bufferFrom a enc = bufferFrom b enc := by
  unfold safeStringCompare
  by_cases hlen : (bufferFrom a enc).length = (bufferFrom b enc).length
  · simp only [hlen]
    rw [if_neg (by simp)]
    rw [timingSafeEqual_eq_true_iff _ _ hlen]
  · rw [if_pos (by simpa using hlen)]
    constructor
    · intro h; cases h
    · intro h; exact absurd (congrArg List.length h) hlen

theorem utf8EncodeCharB_ascii {c : Char} (h : c.toNat < 128) :
    utf8EncodeCharB c = [c.toNat] := by
  unfold utf8EncodeCharB
  simp [h]

theorem utf8EncodeCharB_head_ge {c : Char} (h : ¬ c.toNat < 128) :
    ∃ b rest, utf8EncodeCharB c = b :: rest ∧ 128 ≤ b := by
  by_cases h8 : c.toNat < 0x800
  · exact ⟨0xC0 + c.toNat / 0x40, [0x80 + c.toNat % 0x40],
      by simp [utf8EncodeCharB, h, h8], by omega⟩
  · by_cases h16 : c.toNat < 0x10000
    · exact ⟨0xE0 + c.toNat / 0x1000,
        [0x80 + (c.toNat / 0x40) % 0x40, 0x80 + c.toNat % 0x40],
        by simp [utf8EncodeCharB, h, h8, h16], by omega⟩
    · exact ⟨0xF0 + c.toNat / 0x40000,
        [0x80 + (c.toNat / 0x1000) % 0x40, 0x80 + (c.toNat / 0x40) % 0x40,
          0x80 + c.toNat % 0x40],
        by simp [utf8EncodeCharB, h, h8, h16], by omega⟩

theorem utf8Bytes_of_ascii {cs : List Char} (h : ∀ c ∈ cs, c.toNat < 128) :
    utf8Bytes cs = cs.map Char.toNat := by
  induction cs with
  | nil => rfl
  | cons c cs ih =>
    have hc : c.toNat < 128 := h c (List.mem_cons_self c cs)
    simp [utf8Bytes, utf8EncodeCharB_ascii hc,
      ih (fun d hd => h d (List.mem_cons_of_mem c hd))]

theorem ascii_of_utf8Bytes_lt {cs : List Char}
    (h : ∀ b ∈ utf8Bytes cs, b < 128) : ∀ c ∈ cs, c.toNat < 128 := by
  induction cs with
  | nil => intro c hc; cases hc
  | cons c cs ih =>
    intro d hd
    by_cases hc : c.toNat < 128
    · rcases List.mem_cons.mp hd with rfl | hmem
      · exact hc
      · refine ih ?_ d hmem
        intro b hb
        exact h b (by simp [utf8Bytes, utf8EncodeCharB_ascii hc, hb])
    · rcases utf8EncodeCharB_head_ge hc with ⟨b, rest, henc, hge⟩
      have : b ∈ utf8Bytes (c :: cs) := by simp [utf8Bytes, henc]
      have := h b this
      omega

theorem charToNat_injective {c d : Char} (h : c.toNat = d.toNat) : c = d := by
  apply Char.ext
  rcases hc : c.val with ⟨cv⟩
  rcases hd : d.val with ⟨dv⟩
  rw [Char.toNat, Char.toNat, hc, hd] at h
  simp only [UInt32.toNat] at h
  congr 1
  exact BitVec.eq_of_toNat_eq h

theorem utf8Bytes_inj_of_ascii {cs ds : List Char}
    (ha : ∀ c ∈ cs, c.toNat < 128) (h : utf8Bytes cs = utf8Bytes ds) :
    cs = ds := by
  have hcs : utf8Bytes cs = cs.map Char.toNat := utf8Bytes_of_ascii ha
  have hlt : ∀ b ∈ utf8Bytes ds, b < 128 := by
    intro b hb
    rw [← h, hcs] at hb
    rcases List.mem_map.mp hb with ⟨c, hc, rfl⟩
    exact ha c hc
  have hda : ∀ c ∈ ds, c.toNat < 128 := ascii_of_utf8Bytes_lt hlt
  have hds : utf8Bytes ds = ds.map Char.toNat := utf8Bytes_of_ascii hda
  rw [hcs, hds] at h
  exact List.map_injective_iff.mpr (fun _ _ => charToNat_injective) h

theorem safeStringCompare_utf8_iff {a b : String} (ha : asciiString a) :
    safeStringCompare a b .utf8 = true ↔ a = b := by
  rw [safeStringCompare_eq_true_iff_buf]
  constructor
  · intro h
    have hdata : a.data = b.data := utf8Bytes_inj_of_ascii ha h
    cases a
    cases b
    exact congrArg String.mk hdata
  · intro h; rw [h]

theorem safeStringCompare_utf8_false_of_ne {a b : String} (ha : asciiString a)
    (hne : a ≠ b) : safeStringCompare a b .utf8 = false := by
  rcases hb : safeStringCompare a b .utf8 with _ | _
  · rfl
  · exact absurd ((safeStringCompare_utf8_iff ha).mp hb) hne

/-! ## Library of facts about the row stores -/

theorem find?_filter_not {α : Type} (l : List α) (p : α → Bool) :
    (l.filter (fun r => !(p r))).find? p = none := by
  rw [List.find?_eq_none]
  intro x hx
  have := List.mem_filter.mp hx
  simpa using this.2

theorem find?_append_none {α : Type} (l1 l2 : List α) (p : α → Bool)
    (h : l1.find? p = none) : (l1 ++ l2).find? p = l2.find? p := by
  rw [List.find?_append, h]; rfl

theorem replace_on_write_atMostOne {α : Type} (key : α → String) (l : List α)
    (row : α) (hinv : atMostOnePerKey key l) :
    atMostOnePerKey key (l.filter (fun r => !(key r == key row)) ++ [row]) := by
  intro e
  rw [List.filter_append]
  by_cases he : key row = e
  · have hnil :
        (l.filter (fun r => !(key r == key row))).filter
          (fun r => key r == e) = [] := by
      rw [List.filter_eq_nil_iff]
      intro x hx
      have hmem := (List.mem_filter.mp hx).2
      simp only [Bool.not_eq_true', beq_eq_false_iff_ne] at hmem
      simp [he ▸ hmem]
    rw [hnil]
    simp [he]
  · have hrow : ([row].filter (fun r => key r == e)) = [] := by
      simp [he]
    rw [hrow, List.append_nil]
    calc ((l.filter (fun r => !(key r == key row))).filter
            (fun r => key r == e)).length
        ≤ (l.filter (fun r => key r == e)).length := by
          apply List.Sublist.length_le
          exact List.Sublist.filter _ (List.filter_sublist l)
      _ ≤ 1 := hinv e

/-! ## The claims -/

/-- Claim C7: for every `verifyEmail(email, code)` call where `code` is not
exactly six decimal digits, the call fails with `INVALID_CODE_FORMAT` and
returns the database unchanged — and since the statement holds for every
database state, the outcome is independent of (and so precedes) any store
lookup. -/
theorem verifyEmail_rejects_malformed_code (now : Nat) (email code : String)
    (db : DB) (h : isSixDigitCode code = false) :
    verifyEmail now email code db = (.error .INVALID_CODE_FORMAT, db) := by
  simp [verifyEmail, h]

/-- Witness for `verifyEmail_rejects_malformed_code`: the spec's own example
`verifyEmail(email, "12a456")`, evaluated on `exDb`. -/
theorem verifyEmail_rejects_malformed_code_witness :
    isSixDigitCode "12a456" = false ∧
      verifyEmail 0 "a@x.com" "12a456" exDb =
        (.error .INVALID_CODE_FORMAT, exDb) :=
  ⟨by decide, verifyEmail_rejects_malformed_code 0 "a@x.com" "12a456" exDb
    (by decide)⟩

/-- Claim C5: `loginUser` fails with the same `INVALID_CREDENTIALS` error kind
both when no account exists for the email and when the account exists but the
stored digest does not match the submitted password's digest; in both cases
the returned state is the unchanged input state. -/
theorem loginUser_uniform_invalid_credentials (sha : String → String)
    (email password : String) (db : DB) :
    (db.users.find? (fun u => u.email == email) = none →
      loginUser sha email password db = (.error .INVALID_CREDENTIALS, db)) ∧
    (∀ matchedUser,
      db.users.find? (fun u => u.email == email) = some matchedUser →
      safeStringCompare matchedUser.password (hashPassword sha password) .hex
        = false →
      loginUser sha email password db = (.error .INVALID_CREDENTIALS, db)) := by
  constructor
  · intro h
    simp [loginUser, h]
  · intro matchedUser hu hcmp
    simp [loginUser, hu, hcmp]

/-- Witness for `loginUser_uniform_invalid_credentials`: an unknown email on
`exDb`, and a wrong password on `exDb` (the stored digest is `"0f"`, the
submitted password hashes to `"00"` under the instantiated digest
function). -/
theorem loginUser_uniform_invalid_credentials_witness :
    (exDb.users.find? (fun u => u.email == "b@x.com") = none ∧
      loginUser (fun _ => "00") "b@x.com" "pw" exDb =
        (.error .INVALID_CREDENTIALS, exDb)) ∧
    (exDb.users.find? (fun u => u.email == "a@x.com") =
        some { userId := "u1", email := "a@x.com", password := "0f",
               createdAt := 0, updatedAt := 0 } ∧
      safeStringCompare "0f" (hashPassword (fun _ => "00") "pw") .hex
        = false ∧
      loginUser (fun _ => "00") "a@x.com" "pw" exDb =
        (.error .INVALID_CREDENTIALS, exDb)) :=
  ⟨⟨by decide,
    (loginUser_uniform_invalid_credentials (fun _ => "00") "b@x.com" "pw"
      exDb).1 (by decide)⟩,
   ⟨by decide, by decide,
    (loginUser_uniform_invalid_credentials (fun _ => "00") "a@x.com" "pw"
      exDb).2
      { userId := "u1", email := "a@x.com", password := "0f",
        createdAt := 0, updatedAt := 0 } (by decide) (by decide)⟩⟩

/-- Claim C6: a confirmation token is single-use.  Any token with no stored
row fails with `CONFIRMATION_TOKEN_NOT_FOUND` (state unchanged); after a
successful `confirmAccountByToken(token)`, no row with that token remains,
so the same call on the new state fails with
`CONFIRMATION_TOKEN_NOT_FOUND`. -/
theorem confirmation_token_single_use (token : String) (db db' : DB)
    (h : confirmAccountByToken token db = (.ok (), db')) :
    db'.confirmationTokens.find? (fun c => c.token == token) = none ∧
    confirmAccountByToken token db' =
      (.error .CONFIRMATION_TOKEN_NOT_FOUND, db') ∧
    ∀ (t : String) (s : DB),
      s.confirmationTokens.find? (fun c => c.token == t) = none →
      confirmAccountByToken t s = (.error .CONFIRMATION_TOKEN_NOT_FOUND, s) := by
  have hmiss : ∀ (t : String) (s : DB),
      s.confirmationTokens.find? (fun c => c.token == t) = none →
      confirmAccountByToken t s =
        (.error .CONFIRMATION_TOKEN_NOT_FOUND, s) := by
    intro t s hs
    simp [confirmAccountByToken, hs]
  rcases hfind : db.confirmationTokens.find? (fun c => c.token == token)
    with _ | cd
  · simp only [confirmAccountByToken, hfind] at h
    exact absurd (congrArg Prod.fst h) (by simp)
  · rcases huser : db.users.find? (fun u => u.email == cd.email) with _ | u
    · simp only [confirmAccountByToken, hfind, huser] at h
      exact absurd (congrArg Prod.fst h) (by simp)
    · have hstep : confirmAccountByToken token db =
          (.ok (), { db with confirmationTokens :=
              db.confirmationTokens.filter (fun c => !(c.token == token)) }) := by
        simp [confirmAccountByToken, hfind, huser]
      rw [hstep] at h
      have hdb : db' =
          { db with confirmationTokens :=
              db.confirmationTokens.filter (fun c => !(c.token == token)) } :=
        (congrArg Prod.snd h).symm
      subst hdb
      have hnone :
          (db.confirmationTokens.filter
            (fun c => !(c.token == token))).find?
              (fun c => c.token == token) = none :=
        find?_filter_not _ _
      exact ⟨hnone, hmiss token _ hnone, hmiss⟩

/-- Witness for `confirmation_token_single_use`: consuming `"tok-1"` on
`exDb` succeeds; the theorem then yields the replay failure. -/
theorem confirmation_token_single_use_witness :
    (confirmAccountByToken "tok-1" exDb =
      (.ok (), { exDb with confirmationTokens := [] })) ∧
    ((confirmAccountByToken "tok-1"
        { exDb with confirmationTokens := [] }) =
      (.error .CONFIRMATION_TOKEN_NOT_FOUND,
        { exDb with confirmationTokens := [] })) :=
  ⟨by rfl,
   ((confirmation_token_single_use "tok-1" exDb
      { exDb with confirmationTokens := [] } (by rfl)).2).1⟩

/-- Claim C2: when the account exists and a reset secret is stored for the
email but the stored code (an ASCII string — generated codes are decimal
digits) differs from the submitted code, `resetPassword` fails with
`INVALID_RESET_CODE` regardless of the clock — the match is decided before
the expiry check, so an incorrect code never reveals expiry state — and the
database, including the stored secret, is returned unchanged. -/
theorem resetPassword_wrong_code_before_expiry (sha : String → String)
    (now : Nat) (email code newPassword : String) (db : DB)
    (resetData : ResetRow)
    (hu : (db.users.find? (fun u => u.email == email)).isSome = true)
    (hr : db.resetCodes.find? (fun r => r.email == email) = some resetData)
    (ha : asciiString resetData.code) (hne : resetData.code ≠ code) :
    resetPassword sha now email code newPassword db =
      (.error .INVALID_RESET_CODE, db) := by
  have hcmp : safeStringCompare resetData.code code .utf8 = false :=
    safeStringCompare_utf8_false_of_ne ha hne
  rcases hfind : db.users.find? (fun u => u.email == email) with _ | u
  · rw [hfind] at hu
    cases hu
  · simp [resetPassword, hfind, hr, hcmp]

/-- Witness for `resetPassword_wrong_code_before_expiry`: on `exDb` the
stored code is `"123456"` (expiring at 100); submitting `"654321"` at time
101 — after expiry — still reports `INVALID_RESET_CODE` and leaves the
secret in place. -/
theorem resetPassword_wrong_code_before_expiry_witness :
    (exDb.users.find? (fun u => u.email == "a@x.com")).isSome = true ∧
    exDb.resetCodes.find? (fun r => r.email == "a@x.com") =
      some { email := "a@x.com", code := "123456", expiresAt := 100 } ∧
    resetPassword (fun _ => "00") 101 "a@x.com" "654321" "newpw" exDb =
      (.error .INVALID_RESET_CODE, exDb) :=
  ⟨by decide, by decide,
   resetPassword_wrong_code_before_expiry (fun _ => "00") 101 "a@x.com"
     "654321" "newpw" exDb
     { email := "a@x.com", code := "123456", expiresAt := 100 }
     (by decide) (by decide) (by decide) (by decide)⟩

/-- Claim C4: with the correct code stored for the email, consuming it
strictly after `expiresAt` fails with `RESET_CODE_EXPIRED` and purges the
secret, so retrying the same code afterwards fails with
`RESET_CODE_NOT_FOUND`; consuming it strictly before `expiresAt` (the call
being otherwise valid) succeeds. -/
theorem reset_code_expiry_boundary (sha : String → String) (now now2 : Nat)
    (email newPassword newPassword2 : String) (db : DB)
    (resetData : ResetRow)
    (hu : (db.users.find? (fun u => u.email == email)).isSome = true)
    (hr : db.resetCodes.find? (fun r => r.email == email) = some resetData) :
    (resetData.expiresAt < now →
      resetPassword sha now email resetData.code newPassword db =
        (.error .RESET_CODE_EXPIRED,
          { db with resetCodes :=
              db.resetCodes.filter (fun r => !(r.email == email)) }) ∧
      resetPassword sha now2 email resetData.code newPassword2
          { db with resetCodes :=
              db.resetCodes.filter (fun r => !(r.email == email)) } =
        (.error .RESET_CODE_NOT_FOUND,
          { db with resetCodes :=
              db.resetCodes.filter (fun r => !(r.email == email)) })) ∧
    (now < resetData.expiresAt →
      (resetPassword sha now email resetData.code newPassword db).1 =
        .ok ()) := by
  rcases hfind : db.users.find? (fun u => u.email == email) with _ | u
  · rw [hfind] at hu
    cases hu
  · have hself : safeStringCompare resetData.code resetData.code .utf8 = true :=
      safeStringCompare_self resetData.code .utf8
    constructor
    · intro hexp
      constructor
      · simp [resetPassword, hfind, hr, hself, hexp]
      · have hnone : (db.resetCodes.filter
            (fun r => !(r.email == email))).find?
              (fun r => r.email == email) = none :=
          find?_filter_not _ _
        simp [resetPassword, hfind, hnone]
    · intro hok
      have hnotexp : ¬ (resetData.expiresAt < now) := by omega
      simp [resetPassword, hfind, hr, hself, hnotexp]

/-- Witness for `reset_code_expiry_boundary`: the stored code of `exDb`
expires at 100; consuming it at 101 fails `RESET_CODE_EXPIRED` and purges
it, the retry fails `RESET_CODE_NOT_FOUND`, and consuming it at 99
succeeds. -/
theorem reset_code_expiry_boundary_witness :
    (resetPassword (fun _ => "00") 101 "a@x.com" "123456" "newpw" exDb =
        (.error .RESET_CODE_EXPIRED,
          { exDb with resetCodes :=
              exDb.resetCodes.filter (fun r => !(r.email == "a@x.com")) }) ∧
      resetPassword (fun _ => "00") 102 "a@x.com" "123456" "newpw"
          { exDb with resetCodes :=
              exDb.resetCodes.filter (fun r => !(r.email == "a@x.com")) } =
        (.error .RESET_CODE_NOT_FOUND,
          { exDb with resetCodes :=
              exDb.resetCodes.filter (fun r => !(r.email == "a@x.com")) })) ∧
    ((resetPassword (fun _ => "00") 99 "a@x.com" "123456" "newpw" exDb).1 =
      .ok ()) := by
  have h := reset_code_expiry_boundary (fun _ => "00") 101 102 "a@x.com"
    "newpw" "newpw" exDb
    { email := "a@x.com", code := "123456", expiresAt := 100 }
    (by decide) (by decide)
  have h2 := reset_code_expiry_boundary (fun _ => "00") 99 0 "a@x.com"
    "newpw" "newpw" exDb
    { email := "a@x.com", code := "123456", expiresAt := 100 }
    (by decide) (by decide)
  exact ⟨h.1 (by decide), h2.2 (by decide)⟩

/-- Claim C3: issuing a code deletes any prior code for the email before
inserting the new one, so the at-most-one-live-secret-per-email discipline is
preserved by `sendResetCode` and, independently, by `sendVerificationCode`;
and after two successive issuances to the same email, consuming the first
code fails (`INVALID_RESET_CODE`) because only the second is live. -/
theorem one_live_secret_replace_on_reissue :
    (∀ (code : String) (now : Nat) (email : String) (db : DB),
        atMostOnePerKey (fun r => r.email) db.resetCodes →
        atMostOnePerKey (fun r => r.email)
          (sendResetCode code now email db).2.resetCodes) ∧
    (∀ (code : String) (now : Nat) (email : String) (db : DB),
        atMostOnePerKey (fun v => v.email) db.verificationCodes →
        atMostOnePerKey (fun v => v.email)
          (sendVerificationCode code now email db).2.verificationCodes) ∧
    (∀ (sha : String → String) (code1 code2 newPassword : String)
        (now1 now2 now3 : Nat) (email : String) (db : DB),
        (db.users.find? (fun u => u.email == email)).isSome = true →
        asciiString code2 → code2 ≠ code1 →
        resetPassword sha now3 email code1 newPassword
            (sendResetCode code2 now2 email
              (sendResetCode code1 now1 email db).2).2 =
          (.error .INVALID_RESET_CODE,
            (sendResetCode code2 now2 email
              (sendResetCode code1 now1 email db).2).2)) := by
  refine ⟨?_, ?_, ?_⟩
  · intro code now email db hinv
    rcases hfind : db.users.find? (fun u => u.email == email) with _ | u
    · simpa [sendResetCode, hfind] using hinv
    · have hshape : (sendResetCode code now email db).2.resetCodes =
          db.resetCodes.filter (fun r => !(r.email == email)) ++
            [{ email := email, code := code,
               expiresAt := now + resetCodeTtl }] := by
        simp [sendResetCode, hfind]
      rw [hshape]
      exact replace_on_write_atMostOne (fun r => r.email) db.resetCodes
        { email := email, code := code, expiresAt := now + resetCodeTtl } hinv
  · intro code now email db hinv
    rcases hfind : db.users.find? (fun u => u.email == email) with _ | u
    · simpa [sendVerificationCode, hfind] using hinv
    · have hshape : (sendVerificationCode code now email db).2.verificationCodes =
          db.verificationCodes.filter (fun v => !(v.email == email)) ++
            [{ email := email, code := code,
               expiresAt := now + resetCodeTtl }] := by
        simp [sendVerificationCode, hfind]
      rw [hshape]
      exact replace_on_write_atMostOne (fun v => v.email) db.verificationCodes
        { email := email, code := code, expiresAt := now + resetCodeTtl } hinv
  · intro sha code1 code2 newPassword now1 now2 now3 email db hu ha hne
    rcases hfind : db.users.find? (fun u => u.email == email) with _ | u
    · rw [hfind] at hu
      cases hu
    · have hdb1 : (sendResetCode code1 now1 email db).2 =
          { db with resetCodes :=
              db.resetCodes.filter (fun r => !(r.email == email)) ++
                [{ email := email, code := code1,
                   expiresAt := now1 + resetCodeTtl }] } := by
        simp [sendResetCode, hfind]
      have hdb2 : (sendResetCode code2 now2 email
            (sendResetCode code1 now1 email db).2).2 =
          { db with resetCodes :=
              ((sendResetCode code1 now1 email db).2.resetCodes.filter
                (fun r => !(r.email == email))) ++
                [{ email := email, code := code2,
                   expiresAt := now2 + resetCodeTtl }] } := by
        rw [hdb1]
        simp [sendResetCode, hfind]
      have hfind2 : ((sendResetCode code2 now2 email
            (sendResetCode code1 now1 email db).2).2).resetCodes.find?
              (fun r => r.email == email) =
          some { email := email, code := code2,
                 expiresAt := now2 + resetCodeTtl } := by
        rw [hdb2]
        rw [show ({ db with resetCodes :=
              ((sendResetCode code1 now1 email db).2.resetCodes.filter
                (fun r => !(r.email == email))) ++
                [{ email := email, code := code2,
                   expiresAt := now2 + resetCodeTtl }] } : DB).resetCodes =
            ((sendResetCode code1 now1 email db).2.resetCodes.filter
                (fun r => !(r.email == email))) ++
                [{ email := email, code := code2,
                   expiresAt := now2 + resetCodeTtl }] from rfl]
        rw [find?_append_none _ _ _ (find?_filter_not _ _)]
        simp
      have husers : ((sendResetCode code2 now2 email
            (sendResetCode code1 now1 email db).2).2).users = db.users := by
        rw [hdb2]
      have hcmp : safeStringCompare code2 code1 .utf8 = false :=
        safeStringCompare_utf8_false_of_ne ha hne
      have hfindu : ((sendResetCode code2 now2 email
            (sendResetCode code1 now1 email db).2).2).users.find?
              (fun u => u.email == email) = some u := by
        rw [husers, hfind]
      simp [resetPassword, hfindu, hfind2, hcmp]

/-- Witness for `one_live_secret_replace_on_reissue`, instantiated on
`exDb`: reissuing preserves uniqueness, and the first of two issued codes
(`"111111"` then `"222222"`) is rejected after the second issuance. -/
theorem one_live_secret_replace_on_reissue_witness :
    atMostOnePerKey (fun r => r.email)
      (sendResetCode "999999" 0 "a@x.com" exDb).2.resetCodes ∧
    atMostOnePerKey (fun v => v.email)
      (sendVerificationCode "999999" 0 "a@x.com" exDb).2.verificationCodes ∧
    resetPassword (fun _ => "00") 0 "a@x.com" "111111" "newpw"
        (sendResetCode "222222" 0 "a@x.com"
          (sendResetCode "111111" 0 "a@x.com" exDb).2).2 =
      (.error .INVALID_RESET_CODE,
        (sendResetCode "222222" 0 "a@x.com"
          (sendResetCode "111111" 0 "a@x.com" exDb).2).2) := by
  have hinvR : atMostOnePerKey (fun r => r.email) exDb.resetCodes := by
    intro e
    exact le_trans (List.length_filter_le _ _) (by decide)
  have hinvV : atMostOnePerKey (fun v => v.email) exDb.verificationCodes := by
    intro e
    exact le_trans (List.length_filter_le _ _) (by decide)
  exact ⟨one_live_secret_replace_on_reissue.1 "999999" 0 "a@x.com" exDb hinvR,
    (one_live_secret_replace_on_reissue.2).1 "999999" 0 "a@x.com" exDb hinvV,
    (one_live_secret_replace_on_reissue.2).2 (fun _ => "00") "111111" "222222"
      "newpw" 0 0 0 "a@x.com" exDb (by decide) (by decide) (by decide)⟩

/-- Claim C10: when `createUser(email, password)` succeeds (no account holds
the email), it returns the new user — of the password-free `User` type —
and an immediately following `loginUser(email, password)` on the resulting
state succeeds, returning the same `userId` and `email` (and the same
password-free record), without touching the state: the stored digest is the
deterministic `hashPassword` of the same plaintext, so the constant-time
comparison matches. -/
theorem create_then_login_roundtrip (sha : String → String) (newId : String)
    (now : Nat) (email password : String) (db : DB)
    (h : db.users.find? (fun u => u.email == email) = none) :
    (createUser sha newId now email password db).1 =
      .ok { userId := newId, email := email, createdAt := now,
            updatedAt := now } ∧
    loginUser sha email password (createUser sha newId now email password db).2 =
      (.ok { userId := newId, email := email, createdAt := now,
             updatedAt := now },
        (createUser sha newId now email password db).2) := by
  have hdb : (createUser sha newId now email password db).2 =
      { db with users := db.users ++
          [{ userId := newId, email := email,
             password := hashPassword sha password,
             createdAt := now, updatedAt := now }] } := by
    simp [createUser, h]
  have hfst : (createUser sha newId now email password db).1 =
      .ok { userId := newId, email := email, createdAt := now,
            updatedAt := now } := by
    simp [createUser, h, UserRow.withoutPassword]
  have hfindu : ((createUser sha newId now email password db).2).users.find?
      (fun u => u.email == email) =
      some { userId := newId, email := email,
             password := hashPassword sha password,
             createdAt := now, updatedAt := now } := by
    rw [hdb]
    rw [show ({ db with users := db.users ++
          [{ userId := newId, email := email,
             password := hashPassword sha password,
             createdAt := now, updatedAt := now }] } : DB).users =
        db.users ++
          [{ userId := newId, email := email,
             password := hashPassword sha password,
             createdAt := now, updatedAt := now }] from rfl]
    rw [find?_append_none _ _ _ h]
    simp
  have hcmp : safeStringCompare (hashPassword sha password)
      (hashPassword sha password) .hex = true :=
    safeStringCompare_self _ _
  refine ⟨hfst, ?_⟩
  simp [loginUser, hfindu, hcmp, UserRow.withoutPassword]

/-- Witness for `create_then_login_roundtrip`: registering `b@x.com` on
`exDb` and logging straight back in. -/
theorem create_then_login_roundtrip_witness :
    exDb.users.find? (fun u => u.email == "b@x.com") = none ∧
    (createUser (fun _ => "d1") "u2" 5 "b@x.com" "Passw0rd!" exDb).1 =
      .ok { userId := "u2", email := "b@x.com", createdAt := 5,
            updatedAt := 5 } ∧
    loginUser (fun _ => "d1") "b@x.com" "Passw0rd!"
        (createUser (fun _ => "d1") "u2" 5 "b@x.com" "Passw0rd!" exDb).2 =
      (.ok { userId := "u2", email := "b@x.com", createdAt := 5,
             updatedAt := 5 },
        (createUser (fun _ => "d1") "u2" 5 "b@x.com" "Passw0rd!" exDb).2) :=
  ⟨by decide,
   create_then_login_roundtrip (fun _ => "d1") "u2" 5 "b@x.com" "Passw0rd!"
     exDb (by decide)⟩

/-- Claim C9: under the instrumented cost model, the running time of
`safeStringCompare` is a function of the two buffer lengths alone — replacing
either input by any other input of the same encoded length (in particular one
whose first differing byte is elsewhere) leaves the elapsed time unchanged —
and when the lengths differ the result is `false`; the instrumented function
computes the same Boolean as the source function. -/
theorem compare_time_content_independent (s1 s2 t1 t2 : String)
    (enc : BufEncoding)
    (h1 : (bufferFrom s1 enc).length = (bufferFrom t1 enc).length)
    (h2 : (bufferFrom s2 enc).length = (bufferFrom t2 enc).length) :
    (safeStringCompareT s1 s2 enc).2 = (safeStringCompareT t1 t2 enc).2 ∧
    ((bufferFrom s1 enc).length ≠ (bufferFrom s2 enc).length →
      (safeStringCompareT s1 s2 enc).1 = false) ∧
    (safeStringCompareT s1 s2 enc).1 = safeStringCompare s1 s2 enc := by
  have key : ∀ a b : String,
      (safeStringCompareT a b enc).2 =
        if (bufferFrom a enc).length = (bufferFrom b enc).length
        then bufFromCost (bufferFrom a enc).length +
             bufFromCost (bufferFrom b enc).length + 1 +
             (bufferFrom a enc).length
        else bufFromCost (bufferFrom a enc).length +
             bufFromCost (bufferFrom b enc).length + 1 := by
    intro a b
    by_cases hab : (bufferFrom a enc).length = (bufferFrom b enc).length
    · simp [safeStringCompareT, hab, ctEqLoop_snd_eq_length _ _ _ hab]
    · simp [safeStringCompareT, hab]
  refine ⟨?_, ?_, ?_⟩
  · rw [key s1 s2, key t1 t2, h1, h2]
  · intro hne
    simp [safeStringCompareT, hne]
  · by_cases hab : (bufferFrom s1 enc).length = (bufferFrom s2 enc).length
    · simp [safeStringCompareT, safeStringCompare, timingSafeEqual, hab]
    · simp [safeStringCompareT, safeStringCompare, hab]

/-- Witness for `compare_time_content_independent`: `("ab","ax")` first
differ at byte 1, `("cd","yd")` at byte 0; all four utf8 buffers have length
2, and the measured costs coincide. -/
theorem compare_time_content_independent_witness :
    (bufferFrom "ab" .utf8).length = (bufferFrom "cd" .utf8).length ∧
    (bufferFrom "ax" .utf8).length = (bufferFrom "yd" .utf8).length ∧
    (safeStringCompareT "ab" "ax" .utf8).2 =
      (safeStringCompareT "cd" "yd" .utf8).2 ∧
    (safeStringCompareT "ab" "ax" .utf8).1 = safeStringCompare "ab" "ax" .utf8 := by
  have h := compare_time_content_independent "ab" "ax" "cd" "yd" .utf8
    (by decide) (by decide)
  exact ⟨by decide, by decide, h.1, h.2.2⟩

/-- Claim C8, as stated, is false at this input: deleting user `"u1"`
(owner of `a@x.com`) succeeds, yet a `VerificationSecret` and a
`ConfirmationSecret` keyed by `a@x.com` remain stored. -/
theorem deleteUser_leaves_nonreset_secrets :
    (deleteUser "u1" exDb).1 = .ok () ∧
    (deleteUser "u1" exDb).2.verificationCodes.filter
      (fun v => v.email == "a@x.com") ≠ [] ∧
    (deleteUser "u1" exDb).2.confirmationTokens.filter
      (fun c => c.email == "a@x.com") ≠ [] := by decide

/-- Claim C8 as amended: a successful `deleteUser(accountId)` removes every
`ResetSecret` keyed by the deleted account's email, but leaves the
verification-code and confirmation-token stores exactly as they were. -/
theorem deleteUser_cascades_reset_codes_only (userId : String) (db db' : DB)
    (h : deleteUser userId db = (.ok (), db')) :
    ∃ user, db.users.find? (fun u => u.userId == userId) = some user ∧
      db'.resetCodes.filter (fun r => r.email == user.email) = [] ∧
      db'.verificationCodes = db.verificationCodes ∧
      db'.confirmationTokens = db.confirmationTokens := by
  rcases hfind : db.users.find? (fun u => u.userId == userId) with _ | user
  · simp only [deleteUser, hfind] at h
    exact absurd (congrArg Prod.fst h) (by simp)
  · have hstep : deleteUser userId db =
        (.ok (), { db with
            users := db.users.filter (fun u => !(u.userId == userId)),
            resetCodes :=
              db.resetCodes.filter (fun r => !(r.email == user.email)) }) := by
      simp only [deleteUser, hfind]
    rw [hstep] at h
    have hdb : db' = { db with
        users := db.users.filter (fun u => !(u.userId == userId)),
        resetCodes :=
          db.resetCodes.filter (fun r => !(r.email == user.email)) } :=
      (congrArg Prod.snd h).symm
    subst hdb
    refine ⟨user, hfind, ?_, rfl, rfl⟩
    rw [List.filter_eq_nil_iff]
    intro x hx
    have h2 := (List.mem_filter.mp hx).2
    simp only [Bool.not_eq_true', beq_eq_false_iff_ne] at h2
    simp [h2]

/-- Witness for `deleteUser_cascades_reset_codes_only`: deleting `"u1"` from
`exDb` clears the reset code for `a@x.com` and leaves the other two secret
stores untouched. -/
theorem deleteUser_cascades_reset_codes_only_witness :
    (deleteUser "u1" exDb).1 = .ok () ∧
    (deleteUser "u1" exDb).2.resetCodes.filter
      (fun r => r.email == "a@x.com") = [] ∧
    (deleteUser "u1" exDb).2.verificationCodes = exDb.verificationCodes ∧
    (deleteUser "u1" exDb).2.confirmationTokens = exDb.confirmationTokens := by
  obtain ⟨user, hu, h1, h2, h3⟩ :=
    deleteUser_cascades_reset_codes_only "u1" exDb (deleteUser "u1" exDb).2 rfl
  have heval : exDb.users.find? (fun u => u.userId == "u1") =
      some { userId := "u1", email := "a@x.com", password := "0f",
             createdAt := 0, updatedAt := 0 } := by decide
  rw [heval] at hu
  have huser : user = { userId := "u1", email := "a@x.com", password := "0f",
                        createdAt := 0, updatedAt := 0 } :=
    (Option.some.inj hu).symm
  subst huser
  exact ⟨rfl, h1, h2, h3⟩

/-- Claim C1 fails on the code: consuming the stored confirmation token — and,
likewise, the stored verification OTP — succeeds and deletes the secret, but
the account table is returned unchanged: the `users` schema has no
`verified` column and neither `confirmAccountByToken` nor `verifyEmail`
writes to it (the source says "For now, successful verification just
consumes the code"), contrary to this claim, to the spec, and to the
repository's own `account-verification.test.ts`. -/
theorem consume_secret_never_sets_verified :
    (confirmAccountByToken "tok-1" exDb).1 = .ok () ∧
    (confirmAccountByToken "tok-1" exDb).2.confirmationTokens = [] ∧
    (confirmAccountByToken "tok-1" exDb).2.users = exDb.users ∧
    (verifyEmail 0 "a@x.com" "123456" exDb).1 = .ok () ∧
    (verifyEmail 0 "a@x.com" "123456" exDb).2.verificationCodes = [] ∧
    (verifyEmail 0 "a@x.com" "123456" exDb).2.users = exDb.users := by decide
